import Mathlib

/-!
Shallow embedding of the background worker pool of
`server/services/v1/workers/worker.go` (tigris).

External collaborators (the transactional store behind `QueueSubspace`,
the transaction manager, JSON codecs, the metadata lookups) are modelled
as environment records supplying the outcome of each call; the worker
functions are translated as pure functions from those environments that
return the sequence of collaborator calls performed (a trace of
`Action`s) together with the Go return value (`Except Err Unit`).
Durations are nanosecond counts (`Nat`), matching the Go type `time.Duration`
on non-negative values.
-/

namespace Workers

/-- Errors. Collaborator errors are abstracted as tagged values; the
error values constructed by `worker.go` itself are explicit. -/
inductive Err where
  | store (tag : String)
  | unknownJobType
  | forcedWorkerStop (id : Nat)
  | testErrorGenerated (n : Int)
  deriving DecidableEq, Repr

/-- Constant `MAX_ERROR_COUNT` from worker.go. -/
def MAX_ERROR_COUNT : Nat := 10

/-- Constant `LEASE_TIME = 1 * time.Minute` from worker.go, in nanoseconds. -/
def LEASE_TIME : Nat := 60 * 1000000000

/-- Constant `PEAK_JOB_ITEMS` from worker.go. -/
def PEAK_JOB_ITEMS : Nat := 5

/-- Task type tag of a queue item (`metadata` constants
`BUILD_INDEX_QUEUE_TASK` and `TEST_QUEUE_TASK`); `other` stands for any
further value of the underlying Go type. -/
inductive TaskType where
  | BUILD_INDEX
  | TEST
  | other (n : Nat)
  deriving DecidableEq, Repr

/-- The fields of `metadata.QueueItem` read or written by worker.go:
`Id`, `TaskType`, `Data` (uninterpreted byte payload) and `ErrorCount`. -/
structure QueueItem where
  id : String
  taskType : TaskType
  data : List Nat
  errorCount : Nat
  deriving DecidableEq, Repr

/-- `Event` struct of worker.go. -/
structure Event where
  success : Bool
  item : QueueItem
  workerId : Nat
  deriving DecidableEq, Repr

/-- Function `newEvent` of worker.go. -/
def newEvent (success : Bool) (item : QueueItem) (workerId : Nat) : Event :=
  { success := success, item := item, workerId := workerId }

/-- `WorkerTestTask` struct of worker.go (`Sleep` is a duration in
nanoseconds, `NumErrors` a Go `int`). -/
structure WorkerTestTask where
  sleep : Nat
  numErrors : Int
  shouldStopWorker : Bool
  deriving DecidableEq, Repr

/-- The per-worker fields of the `Worker` struct that the translated
functions read: the worker id and the base sleep duration. -/
structure WorkerCfg where
  id : Nat
  sleepTime : Nat
  deriving DecidableEq, Repr

/-- One collaborator call made by a worker function, recorded in order
of invocation. Queue operations record the argument item (the value the
pointer refers to at call time). -/
inductive Action where
  | startTx
  | peek (n : Nat)
  | obtainLease (item : QueueItem) (lease : Nat)
  | renewLease (item : QueueItem) (lease : Nat)
  | rollback
  | commit
  | complete (itemId : String)
  | requeue (item : QueueItem) (delay : Nat)
  | dequeue (item : QueueItem)
  | emitEvent (e : Event)
  | stopSelf
  | sleep (d : Nat)
  deriving DecidableEq, Repr

/-- Environment for `handleFailedProcessing`: outcome of each
collaborator call it can make. -/
structure FailEnv where
  startTx : Except Err Unit
  dequeue : Except Err Unit
  requeue : Except Err Unit
  commit : Except Err Unit

/-- Result of a worker function: the final value of the processed item
(Go mutates it through a pointer), the trace of collaborator calls, and
the Go return value. -/
structure TaskResult where
  item : QueueItem
  trace : List Action
  result : Except Err Unit
  deriving Repr

/-- Translation of `Worker.handleFailedProcessing` (worker.go lines
168-188): increment `ErrorCount`; start a transaction; if the new count
is at least `MAX_ERROR_COUNT`, emit a failure event and `Dequeue`,
otherwise `Requeue` with delay `sleepTime * ErrorCount`; commit. -/
def handleFailedProcessing (w : WorkerCfg) (env : FailEnv) (item0 : QueueItem) :
    TaskResult :=
  let item := { item0 with errorCount := item0.errorCount + 1 }
  match env.startTx with
  | .error e => ⟨item, [.startTx], .error e⟩
  | .ok _ =>
    if item.errorCount ≥ MAX_ERROR_COUNT then
      match env.dequeue with
      | .error e =>
          ⟨item, [.startTx, .emitEvent (newEvent false item w.id), .dequeue item],
            .error e⟩
      | .ok _ =>
          ⟨item, [.startTx, .emitEvent (newEvent false item w.id), .dequeue item,
            .commit], env.commit⟩
    else
      match env.requeue with
      | .error e =>
          ⟨item, [.startTx, .requeue item (w.sleepTime * item.errorCount)], .error e⟩
      | .ok _ =>
          ⟨item, [.startTx, .requeue item (w.sleepTime * item.errorCount), .commit],
            env.commit⟩

/-- Environment for `testQueueTask`: the JSON codec for
`WorkerTestTask` payloads and the outcome of each collaborator call. -/
structure TestEnv where
  decodeTest : List Nat → Except Err WorkerTestTask
  encodeTest : WorkerTestTask → List Nat
  startTx : Except Err Unit
  complete : Except Err Unit
  commit : Except Err Unit

/-- Translation of `Worker.testQueueTask` (worker.go lines 201-231):
decode the payload; if `ShouldStopWorker`, clear it, re-encode into
`item.Data`, stop the worker and return an error; else if
`NumErrors > 0`, decrement, re-encode and return an error; else sleep,
start a transaction, `Complete` the item and commit. -/
def testQueueTask (w : WorkerCfg) (env : TestEnv) (item : QueueItem) : TaskResult :=
  match env.decodeTest item.data with
  | .error e => ⟨item, [], .error e⟩
  | .ok t =>
    if t.shouldStopWorker then
      let t1 := { t with shouldStopWorker := false }
      ⟨{ item with data := env.encodeTest t1 }, [.stopSelf],
        .error (.forcedWorkerStop w.id)⟩
    else if t.numErrors > 0 then
      let t1 := { t with numErrors := t.numErrors - 1 }
      ⟨{ item with data := env.encodeTest t1 }, [],
        .error (.testErrorGenerated t1.numErrors)⟩
    else
      match env.startTx with
      | .error e => ⟨item, [.sleep t.sleep, .startTx], .error e⟩
      | .ok _ =>
        match env.complete with
        | .error e => ⟨item, [.sleep t.sleep, .startTx, .complete item.id], .error e⟩
        | .ok _ =>
            ⟨item, [.sleep t.sleep, .startTx, .complete item.id, .commit], env.commit⟩

/-- `metadata.IndexBuildTask` payload fields (spec section 6:
`{namespace_id, proj_name, branch, coll_name}`). -/
structure IndexBuildTask where
  namespaceId : Nat
  projName : String
  branch : String
  collName : String
  deriving DecidableEq, Repr

/-- Environment for `buildIndexTask`. `getTenantErr` is the error
component of the Go pair returned by `TenantManager.GetTenant`; the
tenant value itself never influences control flow in worker.go, so only
the error component is modelled. `renewCount` is the number of times
the indexer invokes the `progressUpdate` callback during
`BuildCollection`. -/
structure BuildEnv where
  decodeBuild : List Nat → Except Err IndexBuildTask
  getTenantErr : Option Err
  getProject : Except Err Unit
  getDatabase : Except Err Unit
  buildCollection : Except Err Unit
  renewCount : Nat
  startTx : Except Err Unit
  updateIndexes : Except Err Unit
  complete : Except Err Unit
  commit : Except Err Unit

/-- Translation of `Worker.buildIndexTask` (worker.go lines 233-283):
decode the payload; call `GetTenant` — worker.go binds its error to the
blank identifier `_`, so `env.getTenantErr` is deliberately unused here,
exactly as in the source; resolve project and database; build the
collection (renewing the lease `renewCount` times through the
callback); then in a fresh transaction update the index metadata,
`Complete` the item and commit. -/
def buildIndexTask (env : BuildEnv) (item : QueueItem) : TaskResult :=
  match env.decodeBuild item.data with
  | .error e => ⟨item, [], .error e⟩
  | .ok _ =>
    match env.getProject with
    | .error e => ⟨item, [], .error e⟩
    | .ok _ =>
      match env.getDatabase with
      | .error e => ⟨item, [], .error e⟩
      | .ok _ =>
        let buildTr := List.replicate env.renewCount (Action.renewLease item LEASE_TIME)
        match env.buildCollection with
        | .error e => ⟨item, buildTr, .error e⟩
        | .ok _ =>
          match env.startTx with
          | .error e => ⟨item, buildTr ++ [.startTx], .error e⟩
          | .ok _ =>
            match env.updateIndexes with
            | .error e => ⟨item, buildTr ++ [.startTx], .error e⟩
            | .ok _ =>
              match env.complete with
              | .error e =>
                  ⟨item, buildTr ++ [.startTx, .complete item.id], .error e⟩
              | .ok _ =>
                  ⟨item, buildTr ++ [.startTx, .complete item.id, .commit], env.commit⟩

/-- Translation of `Worker.processItem` (worker.go lines 190-199):
dispatch on `TaskType`; any other tag yields the error
"unknown job type". -/
def processItem (w : WorkerCfg) (tenv : TestEnv) (benv : BuildEnv)
    (item : QueueItem) : TaskResult :=
  match item.taskType with
  | .BUILD_INDEX => buildIndexTask benv item
  | .TEST => testQueueTask w tenv item
  | .other _ => ⟨item, [], .error .unknownJobType⟩

/-- Environment for `peekAndProcess`: outcomes of the transactional
queue calls it makes directly. `obtainLease` receives `items[0]` and
returns the selected item (the Go call returns a pointer into the
peeked slice). -/
structure PeekEnv where
  startTx : Except Err Unit
  peek : Except Err (List QueueItem)
  obtainLease : QueueItem → Except Err QueueItem
  rollback : Except Err Unit
  commit : Except Err Unit

/-- Result of one `peekAndProcess` cycle: the trace of collaborator
calls and the Go return value. -/
structure PeekResult where
  trace : List Action
  result : Except Err Unit
  deriving Repr

/-- Translation of `Worker.peekAndProcess` (worker.go lines 136-166):
start a transaction; `Peek` up to `PEAK_JOB_ITEMS`; if no items, return
the result of `Rollback`; otherwise `ObtainLease` on `items[0]` with
`LEASE_TIME`, commit, then run the handler (`process`, standing for
`processItem` with its environments fixed); on handler success emit a
success event, on handler failure run `handleFailedProcessing`. -/
def peekAndProcess (w : WorkerCfg) (env : PeekEnv)
    (process : QueueItem → TaskResult) (fenv : FailEnv) : PeekResult :=
  match env.startTx with
  | .error e => ⟨[.startTx], .error e⟩
  | .ok _ =>
    match env.peek with
    | .error e => ⟨[.startTx, .peek PEAK_JOB_ITEMS], .error e⟩
    | .ok [] => ⟨[.startTx, .peek PEAK_JOB_ITEMS, .rollback], env.rollback⟩
    | .ok (first :: _) =>
      let tr0 := [Action.startTx, .peek PEAK_JOB_ITEMS, .obtainLease first LEASE_TIME]
      match env.obtainLease first with
      | .error e => ⟨tr0, .error e⟩
      | .ok selected =>
        match env.commit with
        | .error e => ⟨tr0 ++ [.commit], .error e⟩
        | .ok _ =>
          let pr := process selected
          match pr.result with
          | .ok _ =>
              ⟨tr0 ++ [.commit] ++ pr.trace ++
                [.emitEvent (newEvent true pr.item w.id)], .ok ()⟩
          | .error _ =>
              let fr := handleFailedProcessing w fenv pr.item
              ⟨tr0 ++ [.commit] ++ pr.trace ++ fr.trace, fr.result⟩

/-- Observable state of one execution of `Worker.Loop` (worker.go lines
101-130): the consecutive-failure counter `errCount` and whether the
loop has returned. -/
structure LoopState where
  errCount : Nat
  stopped : Bool
  deriving DecidableEq, Repr

/-- State of a fresh worker as built by `newWorker` (worker.go line 79
sets `errCount: 0`) before `Loop` runs. -/
def newWorkerLoopState : LoopState :=
  { errCount := 0, stopped := false }

/-- One branch taken by the `select` at the head of `Worker.Loop`:
the `done` signal, a heartbeat tick, or the `default` branch running
`peekAndProcess` with the given outcome (`true` = no error). -/
inductive LoopInput where
  | done
  | heartbeatTick
  | process (ok : Bool)
  deriving DecidableEq, Repr

/-- One iteration of `Worker.Loop`: `done` returns; a heartbeat tick
only sends the id; in the default branch an error increments `errCount`
and the loop returns once `errCount ≥ MAX_ERROR_COUNT`, while success
resets `errCount` to zero. A returned (stopped) loop runs no further
iterations, so the state is absorbing. -/
def loopStep (s : LoopState) (i : LoopInput) : LoopState :=
  if s.stopped then s
  else
    match i with
    | .done => { s with stopped := true }
    | .heartbeatTick => s
    | .process ok =>
      if ok then { s with errCount := 0 }
      else
        let n := s.errCount + 1
        if n ≥ MAX_ERROR_COUNT then { errCount := n, stopped := true }
        else { errCount := n, stopped := false }

/-- The loop state after a sequence of iterations from a given state. -/
def runLoop (s : LoopState) (l : List LoopInput) : LoopState :=
  l.foldl loopStep s

/-- The fields of `WorkerInfo` (worker.go lines 285-288) the supervisor
reads: the id of the owned worker and `lastHearbeat` (source spelling),
modelled as a nanosecond timestamp. -/
structure WorkerInfo where
  id : Nat
  lastHearbeat : Nat
  deriving DecidableEq, Repr

/-- The fields of `WorkerPool` that `Start` and `checkHeartbeats`
touch.  `spawned` is a specification-only history: the ids of all
workers ever spawned by the pool, in spawn order; the Go struct keeps
no such list, it is recorded here to state freshness of replacement
ids. -/
structure PoolState where
  maxWorkers : Nat
  nextWorkerId : Nat
  workers : List WorkerInfo
  workerSleepTime : Nat
  poolSleepTime : Nat
  heartbeatCap : Nat
  eventCap : Nat
  spawned : List Nat
  deriving DecidableEq, Repr

/-- Translation of `NewWorkerPool` (worker.go lines 308-324). The
`maxWorkers` field is set to the literal `1` — not to the `maxWorkers`
argument — exactly as in the source; the argument is used only to size
the heartbeat and event channels (`maxWorkers*3`). -/
def NewWorkerPool (maxWorkers wst pst : Nat) : PoolState :=
  { maxWorkers := 1
    nextWorkerId := 0
    workers := []
    workerSleepTime := wst
    poolSleepTime := pst
    heartbeatCap := maxWorkers * 3
    eventCap := maxWorkers * 3
    spawned := [] }

/-- Translation of `WorkerPool.Start` (worker.go lines 326-334): for
`i` from `0` to `pool.maxWorkers - 1`, set `nextWorkerId = i` and
append a freshly started worker with id `i` (its `lastHearbeat` is the
spawn instant). -/
def poolStart (p : PoolState) (now : Nat) : PoolState :=
  (List.range p.maxWorkers).foldl
    (fun st i =>
      { st with
        nextWorkerId := i
        workers := st.workers ++ [{ id := i, lastHearbeat := now }]
        spawned := st.spawned ++ [i] })
    p

/-- Result of one heartbeat sweep over the workers list: the updated
slots, the final `nextWorkerId`, the extended spawn history, and the
ids of the workers that were told to `Stop()`. -/
structure SweepResult where
  workers : List WorkerInfo
  nextWorkerId : Nat
  spawned : List Nat
  stopped : List Nat
  deriving DecidableEq, Repr

/-- Whether `checkHeartbeats` considers a worker silent at instant
`now`: `now.Sub(lastHearbeat) > 5*workerSleepTime` (worker.go line
402); `Nat` truncated subtraction matches Go, where a negative duration
never exceeds the positive threshold. -/
def silentWorker (wst now : Nat) (info : WorkerInfo) : Prop :=
  5 * wst < now - info.lastHearbeat

instance (wst now : Nat) (info : WorkerInfo) : Decidable (silentWorker wst now info) :=
  inferInstanceAs (Decidable (5 * wst < now - info.lastHearbeat))

/-- The body of the `for i, info := range pool.workers` loop of
`checkHeartbeats` (worker.go lines 401-408), threading `nextWorkerId`
and the spawn history left to right: a silent worker is stopped,
`nextWorkerId` is incremented, and the slot is replaced by a freshly
started worker bearing the new id. -/
def sweepWorkers (wst now : Nat) :
    List WorkerInfo → Nat → List Nat → SweepResult
  | [], next, sp => ⟨[], next, sp, []⟩
  | info :: rest, next, sp =>
    if silentWorker wst now info then
      let nid := next + 1
      let r := sweepWorkers wst now rest nid (sp ++ [nid])
      ⟨{ id := nid, lastHearbeat := now } :: r.workers, r.nextWorkerId,
        r.spawned, info.id :: r.stopped⟩
    else
      let r := sweepWorkers wst now rest next sp
      ⟨info :: r.workers, r.nextWorkerId, r.spawned, r.stopped⟩

/-- Translation of `WorkerPool.checkHeartbeats` (worker.go lines
396-409), run on every supervisor tick; also returns the ids of the
workers that were stopped. -/
def checkHeartbeats (p : PoolState) (now : Nat) : PoolState × List Nat :=
  let r := sweepWorkers p.workerSleepTime now p.workers p.nextWorkerId p.spawned
  let p1 :=
    { p with
      workers := r.workers
      nextWorkerId := r.nextWorkerId
      spawned := r.spawned }
  (p1, r.stopped)

/-- Invariant of the pool state used to reason about id freshness:
every id in the spawn history is at most `nextWorkerId`, and the spawn
history is strictly increasing (each spawned id is greater than every
id spawned before it). -/
def PoolInv (p : PoolState) : Prop :=
  (∀ s ∈ p.spawned, s ≤ p.nextWorkerId) ∧ p.spawned.Pairwise (· < ·)

instance (p : PoolState) : Decidable (PoolInv p) := by
  unfold PoolInv
  infer_instance

/-! Concrete sample values used to instantiate theorems with hypotheses. -/

/-- Sample worker configuration. -/
def wA : WorkerCfg := { id := 3, sleepTime := 100 }

/-- Sample TEST queue item; its payload decodes under `decodeT` to
`{sleep := 5, numErrors := 2, shouldStopWorker := false}`. -/
def itemT : QueueItem := { id := "t1", taskType := .TEST, data := [5, 2, 0], errorCount := 0 }

/-- Sample environment where every call of `handleFailedProcessing`
succeeds. -/
def fenvOk : FailEnv :=
  { startTx := .ok (), dequeue := .ok (), requeue := .ok (), commit := .ok () }

/-- Sample payload encoder standing for `jsoniter.Marshal`. -/
def encodeT (t : WorkerTestTask) : List Nat :=
  [t.sleep, t.numErrors.toNat, if t.shouldStopWorker then 1 else 0]

/-- Sample payload decoder standing for `jsoniter.Unmarshal`. -/
def decodeT : List Nat → Except Err WorkerTestTask
  | [s, n, b] => .ok { sleep := s, numErrors := Int.ofNat n, shouldStopWorker := b != 0 }
  | _ => .error (.store "bad payload")

/-- Sample environment where every call of `testQueueTask` succeeds. -/
def tenvOk : TestEnv :=
  { decodeTest := decodeT, encodeTest := encodeT, startTx := .ok ()
    complete := .ok (), commit := .ok () }

/-- Sample BUILD_INDEX payload. -/
def task0 : IndexBuildTask :=
  { namespaceId := 7, projName := "p", branch := "main", collName := "c" }

/-- Sample BUILD_INDEX queue item. -/
def itemB : QueueItem := { id := "b1", taskType := .BUILD_INDEX, data := [0], errorCount := 0 }

/-- Sample environment in which `GetTenant` reports an error ("tenant
not found") while every other collaborator call succeeds. -/
def benvTenantFail : BuildEnv :=
  { decodeBuild := fun _ => .ok task0
    getTenantErr := some (.store "tenant not found")
    getProject := .ok ()
    getDatabase := .ok ()
    buildCollection := .ok ()
    renewCount := 0
    startTx := .ok ()
    updateIndexes := .ok ()
    complete := .ok ()
    commit := .ok () }

/-- Sample environment where `Peek` finds no items and `Rollback`
fails. -/
def penvEmptyRbFail : PeekEnv :=
  { startTx := .ok (), peek := .ok [], obtainLease := fun it => .ok it
    rollback := .error (.store "rollback failed"), commit := .ok () }

/-- Sample environment where `Peek` returns `[itemT]` and every queue
call succeeds. -/
def penvOneItem : PeekEnv :=
  { startTx := .ok (), peek := .ok [itemT], obtainLease := fun it => .ok it
    rollback := .ok (), commit := .ok () }

/-- Sample handler that succeeds without touching the item. -/
def procOk : QueueItem → TaskResult := fun it => ⟨it, [], .ok ()⟩

/-- Sample pool: `NewWorkerPool(1, workerSleepTime=10, poolSleepTime=50)`
started at instant 0; it holds one worker with id 0. -/
def poolA : PoolState := poolStart (NewWorkerPool 1 10 50) 0

/-- Invariant of the worker loop: the consecutive-failure counter never
exceeds `MAX_ERROR_COUNT`, and hitting the bound means the loop has
returned. -/
def LoopInv (s : LoopState) : Prop :=
  s.errCount ≤ MAX_ERROR_COUNT ∧ (s.errCount = MAX_ERROR_COUNT → s.stopped = true)

/-! Theorems, one per claim. -/

/-- C1: the claim says that for every argument `m ≥ 1` to
`NewWorkerPool`, `Start()` spawns exactly `m` workers. The code sets the
`maxWorkers` field to the literal `1`, ignoring the argument (which it
still uses to size both channels), so with `m = 2` the started pool
holds exactly one worker, not two. -/
theorem c1_pool_spawns_one_worker_not_m :
    (poolStart (NewWorkerPool 2 100 1000) 0).workers.length = 1 ∧
    (NewWorkerPool 2 100 1000).maxWorkers = 1 ∧
    (NewWorkerPool 2 100 1000).heartbeatCap = 2 * 3 ∧
    (NewWorkerPool 2 100 1000).eventCap = 2 * 3 := by
  decide

/-- C2: `handleFailedProcessing` increments the `ErrorCount` of the item by
exactly one; when a transaction was obtained, if the incremented count
is at least `MAX_ERROR_COUNT` a failure event is emitted and the item
is dequeued, otherwise it is requeued with delay
`sleepTime * ErrorCount` (the incremented count) and never dequeued;
any item appearing in a `Dequeue` call has
`ErrorCount ≥ MAX_ERROR_COUNT`. -/
theorem c2_failed_processing_policy (w : WorkerCfg) (env : FailEnv)
    (item : QueueItem) (htx : env.startTx = .ok ()) :
    (handleFailedProcessing w env item).item.errorCount = item.errorCount + 1 ∧
    (MAX_ERROR_COUNT ≤ item.errorCount + 1 →
      Action.emitEvent (newEvent false (handleFailedProcessing w env item).item w.id) ∈
        (handleFailedProcessing w env item).trace ∧
      Action.dequeue (handleFailedProcessing w env item).item ∈
        (handleFailedProcessing w env item).trace) ∧
    (item.errorCount + 1 < MAX_ERROR_COUNT →
      Action.requeue (handleFailedProcessing w env item).item
          (w.sleepTime * (item.errorCount + 1)) ∈
        (handleFailedProcessing w env item).trace ∧
      ∀ it, Action.dequeue it ∉ (handleFailedProcessing w env item).trace) ∧
    (∀ it, Action.dequeue it ∈ (handleFailedProcessing w env item).trace →
      MAX_ERROR_COUNT ≤ it.errorCount) := by
  by_cases hge : MAX_ERROR_COUNT ≤ item.errorCount + 1
  · cases hdq : env.dequeue with
    | error e =>
        simp [handleFailedProcessing, htx, hdq, hge]
    | ok u =>
        simp [handleFailedProcessing, htx, hdq, hge]
  · have hlt : item.errorCount + 1 < MAX_ERROR_COUNT := by omega
    cases hrq : env.requeue with
    | error e =>
        simp [handleFailedProcessing, htx, hrq, hge]
    | ok u =>
        simp [handleFailedProcessing, htx, hrq, hge]

/-- C2 witness: at `ErrorCount = 9` the incremented count reaches
`MAX_ERROR_COUNT`, the failure event is emitted and the item is
dequeued; at `ErrorCount = 0` the item is requeued with delay
`sleepTime * 1`. -/
theorem c2_failed_processing_policy_witness :
    Action.dequeue { itemT with errorCount := 10 } ∈
      (handleFailedProcessing wA fenvOk { itemT with errorCount := 9 }).trace ∧
    Action.requeue { itemT with errorCount := 1 } (wA.sleepTime * 1) ∈
      (handleFailedProcessing wA fenvOk itemT).trace := by
  constructor
  · have h := c2_failed_processing_policy wA fenvOk { itemT with errorCount := 9 } rfl
    exact (h.2.1 (by decide)).2
  · have h := c2_failed_processing_policy wA fenvOk itemT rfl
    exact (h.2.2.1 (by decide)).1

/-- C10: in `handleFailedProcessing`, once the incremented count
reaches `MAX_ERROR_COUNT` the failure event is emitted first, before
the `Dequeue` call and before any commit (the trace literally starts
`startTx, emitEvent, dequeue`); consequently the event is emitted even
in executions where the `Dequeue` call or the commit fails. -/
theorem c10_event_emitted_before_dequeue (w : WorkerCfg) (env : FailEnv)
    (item : QueueItem) (htx : env.startTx = .ok ())
    (hmax : MAX_ERROR_COUNT ≤ item.errorCount + 1) :
    (∃ rest, (handleFailedProcessing w env item).trace =
      Action.startTx ::
        Action.emitEvent (newEvent false (handleFailedProcessing w env item).item w.id) ::
        Action.dequeue (handleFailedProcessing w env item).item :: rest) ∧
    (∀ e, env.dequeue = .error e →
      (handleFailedProcessing w env item).result = .error e ∧
      Action.emitEvent (newEvent false (handleFailedProcessing w env item).item w.id) ∈
        (handleFailedProcessing w env item).trace ∧
      Action.commit ∉ (handleFailedProcessing w env item).trace) ∧
    (env.dequeue = .ok () → (handleFailedProcessing w env item).result = env.commit ∧
      Action.emitEvent (newEvent false (handleFailedProcessing w env item).item w.id) ∈
        (handleFailedProcessing w env item).trace) := by
  cases hdq : env.dequeue with
  | error e => simp [handleFailedProcessing, htx, hdq, hmax]
  | ok u => simp [handleFailedProcessing, htx, hdq, hmax]

/-- C10 witness: with a failing `Dequeue` at incremented count 10, the
failure event is still emitted and the dequeue error is returned. -/
theorem c10_event_emitted_before_dequeue_witness :
    Action.emitEvent
        (newEvent false
          (handleFailedProcessing wA
            { fenvOk with dequeue := .error (.store "dq") }
            { itemT with errorCount := 9 }).item wA.id) ∈
      (handleFailedProcessing wA { fenvOk with dequeue := .error (.store "dq") }
        { itemT with errorCount := 9 }).trace ∧
    (handleFailedProcessing wA { fenvOk with dequeue := .error (.store "dq") }
      { itemT with errorCount := 9 }).result = .error (.store "dq") := by
  have h := c10_event_emitted_before_dequeue wA
    { fenvOk with dequeue := .error (.store "dq") }
    { itemT with errorCount := 9 } rfl (by decide)
  have h2 := h.2.1 (.store "dq") rfl
  exact ⟨h2.2.1, h2.1⟩

theorem loopStep_inv (s : LoopState) (hs : LoopInv s) (i : LoopInput) :
    LoopInv (loopStep s i) := by
  obtain ⟨h1, h2⟩ := hs
  by_cases hst : s.stopped
  · simp [loopStep, hst, LoopInv, h1, h2]
  · cases i with
    | done => simp_all [loopStep, LoopInv]
    | heartbeatTick => simp_all [loopStep, LoopInv]
    | process ok =>
        cases ok with
        | true => simp [loopStep, hst, LoopInv, MAX_ERROR_COUNT]
        | false =>
            have hlt : s.errCount < MAX_ERROR_COUNT := by
              rcases Nat.lt_or_ge s.errCount MAX_ERROR_COUNT with h | h
              · exact h
              · have : s.errCount = MAX_ERROR_COUNT := le_antisymm h1 h
                exact absurd (h2 this) (by simpa using hst)
            by_cases hub : MAX_ERROR_COUNT ≤ s.errCount + 1
            · simp [loopStep, hst, LoopInv, hub]
              omega
            · simp [loopStep, hst, LoopInv, hub]
              omega

theorem runLoop_inv (l : List LoopInput) (s : LoopState) (hs : LoopInv s) :
    LoopInv (runLoop s l) := by
  induction l generalizing s with
  | nil => exact hs
  | cons i rest ih => exact ih (loopStep s i) (loopStep_inv s hs i)

/-- C4: starting from a fresh worker and running any sequence of loop
iterations, `errCount` never exceeds `MAX_ERROR_COUNT`; reaching
`MAX_ERROR_COUNT` means the loop has returned; and while the loop is
running, one successful `peekAndProcess` resets `errCount` to zero, one
failing `peekAndProcess` increments it by one, and an increment that
reaches `MAX_ERROR_COUNT` makes the loop return within that same
iteration. -/
theorem c4_errCount_bounded (l : List LoopInput) :
    (runLoop newWorkerLoopState l).errCount ≤ MAX_ERROR_COUNT ∧
    ((runLoop newWorkerLoopState l).errCount = MAX_ERROR_COUNT →
      (runLoop newWorkerLoopState l).stopped = true) ∧
    ((runLoop newWorkerLoopState l).stopped = false →
      (loopStep (runLoop newWorkerLoopState l) (.process true)).errCount = 0 ∧
      (loopStep (runLoop newWorkerLoopState l) (.process false)).errCount =
        (runLoop newWorkerLoopState l).errCount + 1 ∧
      (MAX_ERROR_COUNT ≤
          (loopStep (runLoop newWorkerLoopState l) (.process false)).errCount →
        (loopStep (runLoop newWorkerLoopState l) (.process false)).stopped = true)) := by
  have hinv : LoopInv (runLoop newWorkerLoopState l) :=
    runLoop_inv l newWorkerLoopState (by simp [LoopInv, newWorkerLoopState, MAX_ERROR_COUNT])
  refine ⟨hinv.1, hinv.2, ?_⟩
  intro hst
  refine ⟨by simp [loopStep, hst], ?_, ?_⟩
  · by_cases hub : MAX_ERROR_COUNT ≤ (runLoop newWorkerLoopState l).errCount + 1 <;>
      simp [loopStep, hst, hub]
  · intro hge
    by_cases hub : MAX_ERROR_COUNT ≤ (runLoop newWorkerLoopState l).errCount + 1
    · simp [loopStep, hst, hub]
    · simp [loopStep, hst, hub] at hge

/-- C4 witness: ten consecutive failures drive `errCount` to exactly
`MAX_ERROR_COUNT` and the loop has returned; after nine failures the
loop still runs and a tenth failure increments to the bound and stops
it within that iteration. -/
theorem c4_errCount_bounded_witness :
    (runLoop newWorkerLoopState (List.replicate 10 (LoopInput.process false))).errCount =
      MAX_ERROR_COUNT ∧
    (runLoop newWorkerLoopState (List.replicate 10 (LoopInput.process false))).stopped =
      true ∧
    (loopStep (runLoop newWorkerLoopState (List.replicate 9 (LoopInput.process false)))
        (.process false)).stopped = true := by
  refine ⟨by decide, (c4_errCount_bounded (List.replicate 10 (LoopInput.process false))).2.1
    (by decide), ?_⟩
  exact ((c4_errCount_bounded (List.replicate 9 (LoopInput.process false))).2.2
    (by decide)).2.2 (by decide)

/-- C5: `testQueueTask` checks, in this order: a decoded
`ShouldStopWorker` flag (clear it, re-encode into `item.Data`, stop the
worker, return the forced-stop error — regardless of `NumErrors`);
then `NumErrors > 0` (decrement, re-encode, return the test error);
otherwise it sleeps for `Sleep`, opens a transaction, calls `Complete`
on the item and commits. -/
theorem c5_testQueueTask_order (w : WorkerCfg) (env : TestEnv) (item : QueueItem)
    (t : WorkerTestTask) (hdec : env.decodeTest item.data = .ok t) :
    (t.shouldStopWorker = true →
      (testQueueTask w env item).item.data =
        env.encodeTest { t with shouldStopWorker := false } ∧
      (testQueueTask w env item).trace = [Action.stopSelf] ∧
      (testQueueTask w env item).result = .error (.forcedWorkerStop w.id)) ∧
    (t.shouldStopWorker = false → 0 < t.numErrors →
      (testQueueTask w env item).item.data =
        env.encodeTest { t with numErrors := t.numErrors - 1 } ∧
      (testQueueTask w env item).trace = [] ∧
      (testQueueTask w env item).result =
        .error (.testErrorGenerated (t.numErrors - 1))) ∧
    (t.shouldStopWorker = false → t.numErrors ≤ 0 →
      env.startTx = .ok () → env.complete = .ok () →
      (testQueueTask w env item).item = item ∧
      (testQueueTask w env item).trace =
        [Action.sleep t.sleep, Action.startTx, Action.complete item.id,
          Action.commit] ∧
      (testQueueTask w env item).result = env.commit) := by
  cases hstop : t.shouldStopWorker with
  | true => simp [testQueueTask, hdec, hstop]
  | false =>
    by_cases herr : 0 < t.numErrors
    · simp [testQueueTask, hdec, hstop, herr, not_le.mpr herr]
    · have hle : t.numErrors ≤ 0 := not_lt.mp herr
      refine ⟨by simp, ?_, ?_⟩
      · intro _ hpos
        exact absurd hpos herr
      · intro _ _ htx hcp
        simp [testQueueTask, hdec, hstop, not_lt.mp herr, htx, hcp, herr]

/-- C5 witness: a payload decoding to `ShouldStopWorker = true` takes
the stop path; `[5, 2, 0]` (two remaining injected errors) takes the
decrement path; `[5, 0, 0]` completes and commits. -/
theorem c5_testQueueTask_order_witness :
    (testQueueTask wA tenvOk { itemT with data := [5, 2, 1] }).result =
      .error (.forcedWorkerStop wA.id) ∧
    (testQueueTask wA tenvOk itemT).item.data =
      encodeT { sleep := 5, numErrors := 1, shouldStopWorker := false } ∧
    (testQueueTask wA tenvOk { itemT with data := [5, 0, 0] }).trace =
      [Action.sleep 5, Action.startTx, Action.complete itemT.id, Action.commit] := by
  refine ⟨((c5_testQueueTask_order wA tenvOk { itemT with data := [5, 2, 1] }
    { sleep := 5, numErrors := 2, shouldStopWorker := true } rfl).1 rfl).2.2, ?_, ?_⟩
  · exact ((c5_testQueueTask_order wA tenvOk itemT
      { sleep := 5, numErrors := 2, shouldStopWorker := false } rfl).2.1 rfl
      (by decide)).1
  · exact ((c5_testQueueTask_order wA tenvOk { itemT with data := [5, 0, 0] }
      { sleep := 5, numErrors := 0, shouldStopWorker := false } rfl).2.2 rfl
      (by decide) rfl rfl).2.1

/-- C9: `processItem` on an item whose task type is neither
`BUILD_INDEX` nor `TEST` returns the "unknown job type" error, with an
empty trace — no queue operation is invoked and no event emitted. -/
theorem c9_unknown_job_type (w : WorkerCfg) (tenv : TestEnv) (benv : BuildEnv)
    (item : QueueItem) (n : Nat) (h : item.taskType = .other n) :
    processItem w tenv benv item =
      { item := item, trace := [], result := .error Err.unknownJobType } := by
  unfold processItem
  rw [h]

/-- C9 witness: a concrete item with an unrecognised task type. -/
theorem c9_unknown_job_type_witness :
    processItem wA tenvOk benvTenantFail { itemT with taskType := .other 7 } =
      { item := { itemT with taskType := .other 7 }, trace := [],
        result := .error Err.unknownJobType } :=
  c9_unknown_job_type wA tenvOk benvTenantFail { itemT with taskType := .other 7 } 7 rfl

/-- C3: the claim says a failing tenant lookup makes `buildIndexTask`
return that error. worker.go line 241 binds the `GetTenant` error to
the blank identifier, so the error never reaches the return value: in
an execution where the tenant lookup fails and every other collaborator
call succeeds, the task completes with `.ok`, not with the
tenant-lookup error. -/
theorem c3_tenant_lookup_error_discarded :
    benvTenantFail.getTenantErr = some (.store "tenant not found") ∧
    (buildIndexTask benvTenantFail itemB).result = .ok () ∧
    (buildIndexTask benvTenantFail itemB).result ≠
      .error (.store "tenant not found") := by
  refine ⟨rfl, rfl, ?_⟩
  intro h
  rw [show (buildIndexTask benvTenantFail itemB).result = .ok () from rfl] at h
  exact Except.noConfusion h

/-- C6 counterexample: the claim says that when `Peek` returns no items
the call returns success. worker.go line 147 returns the result of
`tx.Rollback`, so a failing rollback is propagated as an error: with an
empty peek and a failing rollback the cycle returns that error. -/
theorem c6_empty_queue_rollback_error :
    Action.rollback ∈ (peekAndProcess wA penvEmptyRbFail procOk fenvOk).trace ∧
    (peekAndProcess wA penvEmptyRbFail procOk fenvOk).result =
      .error (.store "rollback failed") ∧
    (peekAndProcess wA penvEmptyRbFail procOk fenvOk).result ≠ .ok () := by
  refine ⟨by decide, rfl, ?_⟩
  intro h
  rw [show (peekAndProcess wA penvEmptyRbFail procOk fenvOk).result =
    .error (.store "rollback failed") from rfl] at h
  exact Except.noConfusion h

/-- C6 (amended): when `Peek` returns no items the transaction is
rolled back and `peekAndProcess` returns the result of the rollback itself —
success exactly when the rollback succeeds; when items are returned,
`items[0]` is the one passed to `ObtainLease` with `LEASE_TIME` of one
minute, and the commit happens before any handler action. -/
theorem c6_peek_lease_commit (w : WorkerCfg) (env : PeekEnv)
    (process : QueueItem → TaskResult) (fenv : FailEnv)
    (htx : env.startTx = .ok ()) :
    (env.peek = .ok [] →
      (peekAndProcess w env process fenv).trace =
        [Action.startTx, Action.peek PEAK_JOB_ITEMS, Action.rollback] ∧
      (peekAndProcess w env process fenv).result = env.rollback) ∧
    (∀ first rest, env.peek = .ok (first :: rest) →
      Action.obtainLease first LEASE_TIME ∈ (peekAndProcess w env process fenv).trace ∧
      LEASE_TIME = 60 * 1000000000 ∧
      (∀ sel, env.obtainLease first = .ok sel → env.commit = .ok () →
        ∃ suffix, (peekAndProcess w env process fenv).trace =
          [Action.startTx, Action.peek PEAK_JOB_ITEMS,
            Action.obtainLease first LEASE_TIME, Action.commit] ++
            (process sel).trace ++ suffix)) := by
  constructor
  · intro hpk
    simp [peekAndProcess, htx, hpk]
  · intro first rest hpk
    refine ⟨?_, rfl, ?_⟩
    · cases hol : env.obtainLease first with
      | error e => simp [peekAndProcess, htx, hpk, hol]
      | ok sel =>
          cases hcm : env.commit with
          | error e => simp [peekAndProcess, htx, hpk, hol, hcm]
          | ok u =>
              cases hpr : (process sel).result with
              | ok v => simp [peekAndProcess, htx, hpk, hol, hcm, hpr]
              | error e => simp [peekAndProcess, htx, hpk, hol, hcm, hpr]
    · intro sel hol hcm
      cases hpr : (process sel).result with
      | ok v =>
          refine ⟨[.emitEvent (newEvent true (process sel).item w.id)], ?_⟩
          simp [peekAndProcess, htx, hpk, hol, hcm, hpr]
      | error e =>
          refine ⟨(handleFailedProcessing w fenv (process sel).item).trace, ?_⟩
          simp [peekAndProcess, htx, hpk, hol, hcm, hpr]

/-- C6 (amended) witness: with one peeked item and every call
succeeding, `itemT` is leased for one minute and the commit precedes
the handler actions; with an empty peek the rollback result (here a
success) is returned. -/
theorem c6_peek_lease_commit_witness :
    Action.obtainLease itemT LEASE_TIME ∈
      (peekAndProcess wA penvOneItem procOk fenvOk).trace ∧
    (peekAndProcess wA { penvOneItem with peek := .ok [] } procOk fenvOk).result =
      ({ penvOneItem with peek := .ok [] } : PeekEnv).rollback := by
  constructor
  · exact ((c6_peek_lease_commit wA penvOneItem procOk fenvOk rfl).2 itemT [] rfl).1
  · exact ((c6_peek_lease_commit wA { penvOneItem with peek := .ok [] } procOk fenvOk
      rfl).1 rfl).2

/-- C7: when a TEST task takes an error path after mutating its
payload (the `ShouldStopWorker` path or the `NumErrors > 0` path), the
item later passed to `Requeue` by `handleFailedProcessing` carries the
re-encoded mutated `Data` (the handler and the failure path share the
same item pointer), so the requeue call sees the mutation. -/
theorem c7_requeue_carries_mutated_payload (w : WorkerCfg) (penv : PeekEnv)
    (tenv : TestEnv) (fenv : FailEnv) (item : QueueItem) (rest : List QueueItem)
    (t : WorkerTestTask)
    (h1 : penv.startTx = .ok ()) (h2 : penv.peek = .ok (item :: rest))
    (h3 : penv.obtainLease item = .ok item) (h4 : penv.commit = .ok ())
    (h5 : tenv.decodeTest item.data = .ok t) (h6 : fenv.startTx = .ok ())
    (h7 : item.errorCount + 1 < MAX_ERROR_COUNT) :
    (t.shouldStopWorker = true →
      Action.requeue
          { item with data := tenv.encodeTest { t with shouldStopWorker := false }, errorCount := item.errorCount + 1 }
          (w.sleepTime * (item.errorCount + 1)) ∈
        (peekAndProcess w penv (testQueueTask w tenv) fenv).trace) ∧
    (t.shouldStopWorker = false → 0 < t.numErrors →
      Action.requeue
          { item with data := tenv.encodeTest { t with numErrors := t.numErrors - 1 }, errorCount := item.errorCount + 1 }
          (w.sleepTime * (item.errorCount + 1)) ∈
        (peekAndProcess w penv (testQueueTask w tenv) fenv).trace) := by
  have hnge : ¬ MAX_ERROR_COUNT ≤ item.errorCount + 1 := by omega
  constructor
  · intro hstop
    cases hrq : fenv.requeue with
    | error e =>
        simp [peekAndProcess, testQueueTask, handleFailedProcessing, h1, h2, h3, h4,
          h5, h6, hrq, hstop, hnge]
    | ok u =>
        simp [peekAndProcess, testQueueTask, handleFailedProcessing, h1, h2, h3, h4,
          h5, h6, hrq, hstop, hnge]
  · intro hstop herr
    cases hrq : fenv.requeue with
    | error e =>
        simp [peekAndProcess, testQueueTask, handleFailedProcessing, h1, h2, h3, h4,
          h5, h6, hrq, hstop, herr, not_le.mpr herr, hnge]
    | ok u =>
        simp [peekAndProcess, testQueueTask, handleFailedProcessing, h1, h2, h3, h4,
          h5, h6, hrq, hstop, herr, not_le.mpr herr, hnge]

/-- C7 witness: a concrete run over `itemT` with two remaining injected
errors: the requeued item carries the re-encoded payload with
`NumErrors` decremented to one and `ErrorCount` incremented to one. -/
theorem c7_requeue_carries_mutated_payload_witness :
    Action.requeue
        { itemT with data := encodeT { sleep := 5, numErrors := 1, shouldStopWorker := false }, errorCount := 1 }
        (wA.sleepTime * 1) ∈
      (peekAndProcess wA penvOneItem (testQueueTask wA tenvOk) fenvOk).trace := by
  have h := c7_requeue_carries_mutated_payload wA penvOneItem tenvOk fenvOk itemT []
    { sleep := 5, numErrors := 2, shouldStopWorker := false }
    rfl rfl rfl rfl rfl rfl (by decide)
  exact h.2 rfl (by decide)

theorem sweepWorkers_spec (wst now : Nat) (ws : List WorkerInfo) :
    ∀ (next : Nat) (sp : List Nat), (∀ s ∈ sp, s ≤ next) →
      (∀ s ∈ (sweepWorkers wst now ws next sp).spawned,
          s ≤ (sweepWorkers wst now ws next sp).nextWorkerId) ∧
      next ≤ (sweepWorkers wst now ws next sp).nextWorkerId ∧
      (∃ tail, (sweepWorkers wst now ws next sp).spawned = sp ++ tail) ∧
      (sp.Pairwise (· < ·) →
        (sweepWorkers wst now ws next sp).spawned.Pairwise (· < ·)) ∧
      (sweepWorkers wst now ws next sp).workers.length = ws.length ∧
      (sweepWorkers wst now ws next sp).nextWorkerId =
        next + ws.countP (fun wi => decide (silentWorker wst now wi)) ∧
      (∀ i, ∀ hi : i < ws.length,
        ∀ hj : i < (sweepWorkers wst now ws next sp).workers.length,
        (silentWorker wst now (ws.get ⟨i, hi⟩) →
          (ws.get ⟨i, hi⟩).id ∈ (sweepWorkers wst now ws next sp).stopped ∧
          ((sweepWorkers wst now ws next sp).workers.get ⟨i, hj⟩).id ∈
            (sweepWorkers wst now ws next sp).spawned ∧
          next < ((sweepWorkers wst now ws next sp).workers.get ⟨i, hj⟩).id ∧
          ∀ s ∈ sp, s < ((sweepWorkers wst now ws next sp).workers.get ⟨i, hj⟩).id) ∧
        (¬ silentWorker wst now (ws.get ⟨i, hi⟩) →
          (sweepWorkers wst now ws next sp).workers.get ⟨i, hj⟩ = ws.get ⟨i, hi⟩)) := by
  induction ws with
  | nil =>
      intro next sp hsp
      refine ⟨hsp, le_refl _, ⟨[], by simp [sweepWorkers]⟩, ?_, by simp [sweepWorkers],
        by simp [sweepWorkers], ?_⟩
      · intro h
        simpa [sweepWorkers] using h
      · intro i hi
        exact absurd hi (by simp)
  | cons info rest ih =>
      intro next sp hsp
      by_cases hsil : silentWorker wst now info
      · have hsp1 : ∀ s ∈ sp ++ [next + 1], s ≤ next + 1 := by
          intro s hs
          rcases List.mem_append.mp hs with h | h
          · exact Nat.le_succ_of_le (hsp s h)
          · simp at h
            omega
        obtain ⟨ih1, ih2, ih3, ih4, ih5, ih6, ih7⟩ := ih (next + 1) (sp ++ [next + 1]) hsp1
        have heq : sweepWorkers wst now (info :: rest) next sp =
            ⟨{ id := next + 1, lastHearbeat := now } ::
              (sweepWorkers wst now rest (next + 1) (sp ++ [next + 1])).workers,
             (sweepWorkers wst now rest (next + 1) (sp ++ [next + 1])).nextWorkerId,
             (sweepWorkers wst now rest (next + 1) (sp ++ [next + 1])).spawned,
             info.id :: (sweepWorkers wst now rest (next + 1) (sp ++ [next + 1])).stopped⟩ := by
          simp [sweepWorkers, hsil]
        rw [heq]
        refine ⟨ih1, le_trans (Nat.le_succ _) ih2, ?_, ?_, by simpa using ih5, ?_, ?_⟩
        · obtain ⟨tail, htail⟩ := ih3
          exact ⟨(next + 1) :: tail, by simpa using htail⟩
        · intro hpair
          refine ih4 ?_
          rw [List.pairwise_append]
          refine ⟨hpair, by simp, ?_⟩
          intro a ha b hb
          simp at hb
          subst hb
          exact Nat.lt_succ_of_le (hsp a ha)
        · rw [ih6, List.countP_cons_of_pos _ _ (by simpa using hsil)]
          omega
        · intro i hi hj
          match i with
          | 0 =>
              refine ⟨fun _ => ⟨by simp, ?_, by simp, ?_⟩, fun hns => absurd hsil hns⟩
              · obtain ⟨tail, htail⟩ := ih3
                simp only [List.get]
                rw [htail]
                simp
              · intro s hs
                simp only [List.get]
                exact Nat.lt_succ_of_le (hsp s hs)
          | Nat.succ j =>
              have hji : j < rest.length := by simpa using hi
              have hjj : j < (sweepWorkers wst now rest (next + 1)
                  (sp ++ [next + 1])).workers.length := by
                rw [ih5]; exact hji
              obtain ⟨hyes, hno⟩ := ih7 j hji hjj
              refine ⟨?_, ?_⟩
              · intro hs
                have hs' : silentWorker wst now (rest.get ⟨j, hji⟩) := by
                  simpa using hs
                obtain ⟨a1, a2, a3, a4⟩ := hyes hs'
                refine ⟨List.mem_cons_of_mem _ a1, by simpa using a2, ?_, ?_⟩
                · have : next < next + 1 := Nat.lt_succ_self _
                  simpa using lt_trans this a3
                · intro s hsm
                  have : s < ((sweepWorkers wst now rest (next + 1)
                      (sp ++ [next + 1])).workers.get ⟨j, hjj⟩).id :=
                    a4 s (List.mem_append_left _ hsm)
                  simpa using this
              · intro hns
                have hns' : ¬ silentWorker wst now (rest.get ⟨j, hji⟩) := by
                  simpa using hns
                simpa using hno hns'
      · obtain ⟨ih1, ih2, ih3, ih4, ih5, ih6, ih7⟩ := ih next sp hsp
        have heq : sweepWorkers wst now (info :: rest) next sp =
            ⟨info :: (sweepWorkers wst now rest next sp).workers,
             (sweepWorkers wst now rest next sp).nextWorkerId,
             (sweepWorkers wst now rest next sp).spawned,
             (sweepWorkers wst now rest next sp).stopped⟩ := by
          simp [sweepWorkers, hsil]
        rw [heq]
        refine ⟨ih1, ih2, ih3, ih4, by simpa using ih5, ?_, ?_⟩
        · rw [ih6, List.countP_cons_of_neg _ _ (by simpa using hsil)]
        · intro i hi hj
          match i with
          | 0 => exact ⟨fun hs => absurd hs hsil, fun _ => by simp⟩
          | Nat.succ j =>
              have hji : j < rest.length := by simpa using hi
              have hjj : j < (sweepWorkers wst now rest next sp).workers.length := by
                rw [ih5]; exact hji
              obtain ⟨hyes, hno⟩ := ih7 j hji hjj
              refine ⟨?_, ?_⟩
              · intro hs
                have hs' : silentWorker wst now (rest.get ⟨j, hji⟩) := by simpa using hs
                obtain ⟨a1, a2, a3, a4⟩ := hyes hs'
                exact ⟨a1, by simpa using a2, by simpa using a3,
                  fun s hsm => by simpa using a4 s hsm⟩
              · intro hns
                have hns' : ¬ silentWorker wst now (rest.get ⟨j, hji⟩) := by
                  simpa using hns
                simpa using hno hns'

/-- C8: on a supervisor tick (`checkHeartbeats`), under the pool
invariant (which holds after `Start`), each worker whose heartbeat is
older than `5 * workerSleepTime` is stopped (its id appears in the
stopped list), `nextWorkerId` is incremented once per such worker, and
the slot is replaced by a freshly spawned worker whose id is recorded
in the spawn history and is strictly greater than `nextWorkerId` before
the tick and than every previously spawned id — hence distinct from all
of them (the spawn history stays strictly increasing); slots with live
heartbeats are untouched. -/
theorem c8_recycle_fresh_ids (p : PoolState) (now : Nat) (hp : PoolInv p) :
    PoolInv (checkHeartbeats p now).1 ∧
    (∃ tail, (checkHeartbeats p now).1.spawned = p.spawned ++ tail) ∧
    (checkHeartbeats p now).1.spawned.Pairwise (· < ·) ∧
    (checkHeartbeats p now).1.workers.length = p.workers.length ∧
    (checkHeartbeats p now).1.nextWorkerId = p.nextWorkerId +
      p.workers.countP (fun wi => decide (silentWorker p.workerSleepTime now wi)) ∧
    (∀ i, ∀ hi : i < p.workers.length,
      ∀ hj : i < (checkHeartbeats p now).1.workers.length,
      (silentWorker p.workerSleepTime now (p.workers.get ⟨i, hi⟩) →
        (p.workers.get ⟨i, hi⟩).id ∈ (checkHeartbeats p now).2 ∧
        ((checkHeartbeats p now).1.workers.get ⟨i, hj⟩).id ∈
          (checkHeartbeats p now).1.spawned ∧
        p.nextWorkerId < ((checkHeartbeats p now).1.workers.get ⟨i, hj⟩).id ∧
        ∀ s ∈ p.spawned, s < ((checkHeartbeats p now).1.workers.get ⟨i, hj⟩).id) ∧
      (¬ silentWorker p.workerSleepTime now (p.workers.get ⟨i, hi⟩) →
        (checkHeartbeats p now).1.workers.get ⟨i, hj⟩ = p.workers.get ⟨i, hi⟩)) := by
  obtain ⟨hple, hppair⟩ := hp
  obtain ⟨s1, s2, s3, s4, s5, s6, s7⟩ :=
    sweepWorkers_spec p.workerSleepTime now p.workers p.nextWorkerId p.spawned hple
  exact ⟨⟨s1, s4 hppair⟩, s3, s4 hppair, s5, s6, s7⟩

/-- C8 witness: a started one-worker pool whose worker has been silent
for longer than the threshold: on the tick, worker 0 is stopped and its
replacement id is greater than every previously spawned id. -/
theorem c8_recycle_fresh_ids_witness :
    PoolInv poolA ∧
    (poolA.workers.get ⟨0, by decide⟩).id ∈ (checkHeartbeats poolA 1000).2 ∧
    ∀ s ∈ poolA.spawned,
      s < ((checkHeartbeats poolA 1000).1.workers.get ⟨0, by decide⟩).id := by
  have hp : PoolInv poolA := by decide
  have h := c8_recycle_fresh_ids poolA 1000 hp
  have h6 := (h.2.2.2.2.2 0 (by decide) (by decide)).1 (by decide)
  exact ⟨hp, h6.1, h6.2.2.2⟩

end Workers
